import Mathlib

/-
Verification development for the Daily-Email-automation-to-hrs repository.

Part 1 models the job-hunting crawler core described by the specification
(sections 3, 4, 7).  The crawler core itself is not present in the source
tree (only the surrounding batch scripts are), so its definitions are
modelled from the specification text and marked as such.

Part 2 embeds `updateSentStatus` from scripts/phase4.js, which is present
in the source tree, and proves frame and error-propagation properties of it.
-/

/-- True exactly when an Except value carries a success, not an error. -/
def isSuccess {ε α : Type} (e : Except ε α) : Bool := e.toOption.isSome

namespace Crawler

/-- Modelled from the spec: section 3 Qualified Job record, missing from src.
Fields title, link and sourceDomain; matchedAt is irrelevant to the claims
and omitted from the dedup key by the spec itself. -/
structure QualifiedJob where
  title : String
  link : String
  sourceDomain : String
deriving DecidableEq

/-- Lowercase every character of a string. -/
def lowerStr (s : String) : String := String.mk (s.data.map Char.toLower)

/-- Modelled from the spec: link normalization, missing from src.  The spec
only says links are normalized before comparison; we model it as
lowercasing and dropping a trailing slash. -/
def normalizeLink (s : String) : String :=
  let t := lowerStr s
  if t.data ≠ [] ∧ t.data.getLast? = some '/' then String.mk t.data.dropLast else t

/-- Modelled from the spec: title normalization, missing from src; modelled
as lowercasing. -/
def normalizeTitle (s : String) : String := lowerStr s

/-- Modelled from the spec: the dedup key of section 3 — normalized link,
falling back to normalized title plus domain. Two jobs collide when their
normalized links agree or their normalized title and source domain agree. -/
def sameJobKey (a b : QualifiedJob) : Bool :=
  normalizeLink a.link == normalizeLink b.link ||
    (normalizeTitle a.title == normalizeTitle b.title && a.sourceDomain == b.sourceDomain)

/-- Modelled from the spec: the Accumulator merge of section 4.5, missing
from src.  Newly qualified jobs are merged into the accepted list in
insertion order; a job colliding with an already-accepted one is dropped
silently and counted (the `duplicatesSkipped` counter). -/
def mergeJobs (acc : List QualifiedJob) : List QualifiedJob → List QualifiedJob × Nat
  | [] => (acc, 0)
  | j :: rest =>
    if acc.any (fun a => sameJobKey a j) then
      let p := mergeJobs acc rest
      (p.1, p.2 + 1)
    else
      mergeJobs (acc ++ [j]) rest

/-- Modelled from the spec: stop reasons of the section 4.5 state machine. -/
inductive StopReason
  | targetReached
  | timeoutReached
  | domainsExhausted
deriving DecidableEq

/-- Modelled from the spec: the RUNNING / STOPPED(reason) status. -/
inductive AccStatus
  | running
  | stopped (reason : StopReason)
deriving DecidableEq

/-- Modelled from the spec: the section 3 Run State owned by the Accumulator. -/
structure RunState where
  targetCount : Int
  deadline : Nat
  status : AccStatus
  accepted : List QualifiedJob
  domainsAttempted : Nat
  domainsValid : Nat
  totalCandidatesSeen : Nat
  duplicatesSkipped : Nat
deriving DecidableEq

/-- Modelled from the spec: the per-domain outcome fed to the Accumulator. -/
structure DomainOutcome where
  domain : String
  qualifiedJobs : List QualifiedJob
  candidatesSeen : Nat
  wasValid : Bool
deriving DecidableEq

/-- Modelled from the spec: `recordDomainOutcome` of section 4.5, missing
from src.  Once STOPPED it is a no-op returning the frozen state; otherwise
it merges the new jobs, bumps the counters, then transitions: accepted
reached the target → STOPPED(targetReached); the deadline passed →
STOPPED(timeoutReached); the domain list exhausted → STOPPED(domainsExhausted). -/
def recordDomainOutcome (s : RunState) (now : Nat) (moreDomains : Bool)
    (o : DomainOutcome) : RunState :=
  match s.status with
  | .stopped _ => s
  | .running =>
    let p := mergeJobs s.accepted o.qualifiedJobs
    let s1 : RunState :=
      { s with
        accepted := p.1
        domainsAttempted := s.domainsAttempted + 1
        domainsValid := s.domainsValid + (if o.wasValid then 1 else 0)
        totalCandidatesSeen := s.totalCandidatesSeen + o.candidatesSeen
        duplicatesSkipped := s.duplicatesSkipped + p.2 }
    if s.targetCount ≤ (p.1.length : Int) then
      { s1 with status := .stopped .targetReached }
    else if s.deadline ≤ now then
      { s1 with status := .stopped .timeoutReached }
    else if moreDomains then s1
    else { s1 with status := .stopped .domainsExhausted }

/-- Modelled from the spec: what one domain contributes to a run — its
outcome, the number of HTTP fetches its pipeline performed, and the
wall-clock time it consumed.  Abstracts the Fetcher/Classifier/Extractor
pipeline whose result the Accumulator consumes. -/
structure DomainWork where
  outcome : DomainOutcome
  fetches : Nat
  duration : Nat
deriving DecidableEq

/-- Modelled from the spec: the section 5 run loop, missing from src.
The stop condition is checked before each domain is dequeued (workers check
the deadline before starting a pipeline); each dequeued domain performs its
fetches, advances the clock, and reports its outcome to the Accumulator.
Returns the final state, the final clock and the total fetches performed. -/
def runLoop : List DomainWork → RunState → Nat → Nat → RunState × Nat × Nat
  | [], s, time, fetches =>
    match s.status with
    | .stopped _ => (s, time, fetches)
    | .running =>
      if s.deadline ≤ time then
        ({ s with status := .stopped .timeoutReached }, time, fetches)
      else
        ({ s with status := .stopped .domainsExhausted }, time, fetches)
  | w :: rest, s, time, fetches =>
    match s.status with
    | .stopped _ => (s, time, fetches)
    | .running =>
      if s.deadline ≤ time then
        ({ s with status := .stopped .timeoutReached }, time, fetches)
      else
        let time1 := time + w.duration
        let s1 := recordDomainOutcome s time1 (!rest.isEmpty) w.outcome
        runLoop rest s1 time1 (fetches + w.fetches)

/-- Modelled from the spec: the fatal configuration error of section 7. -/
inductive RunFatal
  | configurationError
deriving DecidableEq

/-- Modelled from the spec: the run configuration consumed by the core. -/
structure RunConfig where
  targetCount : Int
  deadline : Nat
  startTime : Nat
deriving DecidableEq

/-- Modelled from the spec: the initial Run State of a run. -/
def initState (cfg : RunConfig) : RunState :=
  { targetCount := cfg.targetCount
    deadline := cfg.deadline
    status := .running
    accepted := []
    domainsAttempted := 0
    domainsValid := 0
    totalCandidatesSeen := 0
    duplicatesSkipped := 0 }

/-- Modelled from the spec: the whole run, missing from src.  A
non-positive targetCount is a ConfigurationError surfaced before any
crawling; otherwise the run loop executes to a terminal state. -/
def runCrawler (cfg : RunConfig) (work : List DomainWork) :
    Except RunFatal (RunState × Nat × Nat) :=
  if cfg.targetCount ≤ 0 then .error .configurationError
  else .ok (runLoop work (initState cfg) cfg.startTime 0)

/-- Modelled from the spec: what the underlying HTTP client does on one
attempt — it can return a status code with a body, run into the per-fetch
timeout, or raise a network error.  The raised error is the thing the
Fetcher must not let past its boundary. -/
inductive RawAttempt
  | success (httpStatus : Nat) (body : String)
  | timedOut
  | raisedNetworkError (message : String)
deriving DecidableEq

/-- Modelled from the spec: the section 3 Fetch Result status tri-state. -/
inductive FetchStatus
  | ok
  | timeout
  | httpError
  | networkError
deriving DecidableEq

/-- Modelled from the spec: the section 3 Fetch Result record. -/
structure FetchResult where
  url : String
  status : FetchStatus
  body : Option String
  fetchedAt : Nat
deriving DecidableEq

/-- Modelled from the spec: classification of one raw attempt into a Fetch
Result variant.  A 2xx/3xx status is ok with a body; other statuses are
httpError; a client timeout is timeout; a raised error is networkError. -/
def classifyAttempt (url : String) (now : Nat) : RawAttempt → FetchResult
  | .success code body =>
    if 200 ≤ code ∧ code < 400 then
      { url := url, status := .ok, body := some body, fetchedAt := now }
    else
      { url := url, status := .httpError, body := none, fetchedAt := now }
  | .timedOut => { url := url, status := .timeout, body := none, fetchedAt := now }
  | .raisedNetworkError _ =>
    { url := url, status := .networkError, body := none, fetchedAt := now }

/-- Modelled from the spec: the section 4.1 Fetcher, missing from src.
It wraps the raw client, retries at most once and only on a transient
network error (never on a 4xx/5xx HTTP status), and converts every raw
outcome into a Fetch Result instead of letting it escape, so its Except
boundary never carries an error. -/
def fetch (url : String) (perFetchTimeout : Nat) (now : Nat)
    (first retry : RawAttempt) : Except String FetchResult :=
  let r1 := classifyAttempt url now first
  match r1.status with
  | .networkError => .ok (classifyAttempt url (now + perFetchTimeout) retry)
  | _ => .ok r1

/-- Modelled from the spec: the section 3 Job Candidate record. -/
structure JobCandidate where
  title : String
  link : String
  rawContext : String
  sourceDomain : String
deriving DecidableEq

/-- Modelled from the spec: the static candidate profile of section 4.4 —
fresher-friendly signals, senior exclusion terms, and resume skill keywords. -/
structure Profile where
  fresherSignals : List String
  seniorExclusions : List String
  skillKeywords : List String
deriving DecidableEq

/-- Whether the first list of characters occurs at the head of the second. -/
def charsStartWith : List Char → List Char → Bool
  | [], _ => true
  | _ :: _, [] => false
  | a :: as, b :: bs => a == b && charsStartWith as bs

/-- Whether the first list of characters occurs anywhere inside the second. -/
def charsContain (needle : List Char) : List Char → Bool
  | [] => needle.isEmpty
  | c :: rest => charsStartWith needle (c :: rest) || charsContain needle rest

/-- Case-insensitive substring test on strings. -/
def containsKeyword (text keyword : String) : Bool :=
  charsContain (lowerStr keyword).data (lowerStr text).data

/-- Modelled from the spec: the text a candidate is judged on — its title
together with its raw context. -/
def candidateText (c : JobCandidate) : String := c.title ++ " " ++ c.rawContext

/-- Modelled from the spec: the section 4.4 level gate, missing from src.
The text must match a fresher-friendly signal and must not match a senior
exclusion term. -/
def levelGate (c : JobCandidate) (p : Profile) : Bool :=
  p.fresherSignals.any (containsKeyword (candidateText c)) &&
    !(p.seniorExclusions.any (containsKeyword (candidateText c)))

/-- Modelled from the spec: the section 4.4 alignment gate, missing from
src.  At least one skill keyword must occur in the text. -/
def alignmentGate (c : JobCandidate) (p : Profile) : Bool :=
  p.skillKeywords.any (containsKeyword (candidateText c))

/-- Modelled from the spec: the Alignment Filter of section 4.4 — both
gates must pass. -/
def evaluate (c : JobCandidate) (p : Profile) : Bool :=
  levelGate c p && alignmentGate c p

/-- Modelled from the spec: the fixed candidate profile the system crawls
for, using the keyword families the spec names. -/
def defaultProfile : Profile :=
  { fresherSignals := ["intern", "entry-level", "entry level", "associate",
      "graduate", "0-1 years", "new-grad", "new grad", "fresher"]
    seniorExclusions := ["senior", "lead", "staff", "principal"]
    skillKeywords := ["software", "full-stack", "full stack", "machine learning",
      "ai/ml", "javascript", "react", "backend", "frontend"] }

/-- Every path through the run loop ends in a STOPPED state. -/
theorem runLoop_stopped :
    ∀ (work : List DomainWork) (s : RunState) (time fetches : Nat),
      ∃ r, ((runLoop work s time fetches).1).status = .stopped r := by
  intro work
  induction work with
  | nil =>
    intro s time fetches
    obtain ⟨tc, dl, st, acc, da, dv, tcs, ds⟩ := s
    cases st with
    | stopped r => exact ⟨r, rfl⟩
    | running =>
      simp only [runLoop]
      split
      · exact ⟨.timeoutReached, rfl⟩
      · exact ⟨.domainsExhausted, rfl⟩
  | cons w rest ih =>
    intro s time fetches
    obtain ⟨tc, dl, st, acc, da, dv, tcs, ds⟩ := s
    cases st with
    | stopped r => exact ⟨r, rfl⟩
    | running =>
      simp only [runLoop]
      split
      · exact ⟨.timeoutReached, rfl⟩
      · exact ih _ _ _

/-- C5: the Fetcher never lets an error cross its boundary — for every raw
client behavior the Except result is a success carrying a FetchResult; a
raised network error classifies as the networkError variant, a client
timeout as timeout, a non-2xx/3xx status as httpError; and no individual
domain behavior makes the run itself fail: for every positive target the
whole run returns a success. -/
theorem C5_fetch_never_raises :
    (∀ (url : String) (pt now : Nat) (first retry : RawAttempt),
        isSuccess (fetch url pt now first retry) = true) ∧
    (∀ (url : String) (now : Nat) (msg : String),
        (classifyAttempt url now (.raisedNetworkError msg)).status = .networkError) ∧
    (∀ (url : String) (now : Nat),
        (classifyAttempt url now .timedOut).status = .timeout) ∧
    (∀ (url : String) (now : Nat) (code : Nat) (body : String),
        ¬ (200 ≤ code ∧ code < 400) →
        (classifyAttempt url now (.success code body)).status = .httpError) ∧
    (∀ (cfg : RunConfig) (work : List DomainWork),
        0 < cfg.targetCount → isSuccess (runCrawler cfg work) = true) := by
  refine ⟨?_, fun url now msg => rfl, fun url now => rfl, ?_, ?_⟩
  · intro url pt now first retry
    cases h : (classifyAttempt url now first).status <;>
      simp [fetch, isSuccess, h, Except.toOption]
  · intro url now code body h
    simp only [classifyAttempt]
    rw [if_neg h]
  · intro cfg work h
    unfold runCrawler
    rw [if_neg (by omega)]
    rfl

/-- Witness for C5 at a concrete failing attempt and a concrete run. -/
theorem C5_fetch_never_raises_witness :
    (classifyAttempt "https://x.example" 0 (.success 404 "not found")).status
        = .httpError ∧
    isSuccess (runCrawler ⟨1, 100, 0⟩ []) = true := by
  constructor
  · exact C5_fetch_never_raises.2.2.2.1 "https://x.example" 0 404 "not found"
      (by omega)
  · exact C5_fetch_never_raises.2.2.2.2 ⟨1, 100, 0⟩ [] (by decide)

/-- The level-gate boundary candidate the spec rejects. -/
def seniorCandidate : JobCandidate :=
  ⟨"Senior Software Engineer", "https://x.example/1", "apply for this role",
    "x.example"⟩

/-- The level-gate boundary candidate the spec accepts: a fresher-friendly
title whose text carries a matching skill keyword. -/
def internCandidate : JobCandidate :=
  ⟨"Software Engineer Intern", "https://x.example/2",
    "apply for this software role", "x.example"⟩

/-- C6: against the fixed profile, the title Senior Software Engineer is
rejected, the title Software Engineer Intern with a matching skill keyword
in its text is accepted, and acceptance is exactly the conjunction of the
level gate and the alignment gate. -/
theorem C6_level_gate_boundary :
    evaluate seniorCandidate defaultProfile = false ∧
    evaluate internCandidate defaultProfile = true ∧
    (∀ (c : JobCandidate) (p : Profile),
        evaluate c p = (levelGate c p && alignmentGate c p)) := by
  refine ⟨by decide, by decide, fun c p => rfl⟩

/-- C7: a non-positive targetCount is exactly the configuration error, the
error is decided before any domain work is consulted, and for every
positive targetCount the run never fails — it returns a success whose
state is STOPPED with one of the three terminal reasons. -/
theorem C7_config_error :
    (∀ (cfg : RunConfig) (work : List DomainWork),
        cfg.targetCount ≤ 0 ↔ runCrawler cfg work = .error .configurationError) ∧
    (∀ (cfg : RunConfig) (work : List DomainWork),
        cfg.targetCount ≤ 0 → runCrawler cfg work = runCrawler cfg []) ∧
    (∀ (cfg : RunConfig) (work : List DomainWork),
        0 < cfg.targetCount →
        ∃ s time fetches, runCrawler cfg work = .ok (s, time, fetches) ∧
          ∃ r, s.status = .stopped r) := by
  refine ⟨?_, ?_, ?_⟩
  · intro cfg work
    constructor
    · intro h
      unfold runCrawler
      rw [if_pos h]
    · intro h
      unfold runCrawler at h
      by_contra hc
      rw [if_neg hc] at h
      exact absurd h (by simp)
  · intro cfg work h
    unfold runCrawler
    rw [if_pos h, if_pos h]
  · intro cfg work h
    obtain ⟨r, hr⟩ := runLoop_stopped work (initState cfg) cfg.startTime 0
    refine ⟨(runLoop work (initState cfg) cfg.startTime 0).1,
      (runLoop work (initState cfg) cfg.startTime 0).2.1,
      (runLoop work (initState cfg) cfg.startTime 0).2.2, ?_, r, hr⟩
    unfold runCrawler
    rw [if_neg (by omega)]

/-- Witness for C7 at a rejected and an accepted concrete configuration. -/
theorem C7_config_error_witness :
    runCrawler ⟨0, 100, 0⟩ [overshootWork] = .error .configurationError ∧
    runCrawler ⟨0, 100, 0⟩ [overshootWork] = runCrawler ⟨0, 100, 0⟩ [] ∧
    isSuccess (runCrawler ⟨1, 100, 0⟩ [overshootWork]) = true := by
  refine ⟨(C7_config_error.1 ⟨0, 100, 0⟩ [overshootWork]).mp (by decide),
    C7_config_error.2.1 ⟨0, 100, 0⟩ [overshootWork] (by decide), ?_⟩
  obtain ⟨s, time, fetches, heq, -⟩ :=
    C7_config_error.2.2 ⟨1, 100, 0⟩ [overshootWork] (by decide)
  rw [isSuccess, heq]
  rfl

end Crawler

namespace Phase4

/-- One cell write issued to the Sheets API; `row` and `col` are 0-based,
so col 0 is column A, col 1 is column B, col 2 is column C, col 3 is
column D, and row 0 is sheet row 1 (the header row). -/
structure CellWrite where
  row : Nat
  col : Nat
  value : String
deriving DecidableEq

/-- Pad a row of cells with empty strings up to length `n`. -/
def padTo (xs : List String) (n : Nat) : List String :=
  xs ++ List.replicate (n - xs.length) ""

/-- Set cell `c` of a row, padding with empty strings when the row is short. -/
def setCellRow (r : List String) (c : Nat) (v : String) : List String :=
  (padTo r (c + 1)).set c v

/-- Pad a sheet with empty rows up to `n` rows. -/
def padRows (sheet : List (List String)) (n : Nat) : List (List String) :=
  sheet ++ List.replicate (n - sheet.length) []

/-- Write one cell of the sheet, creating missing rows and cells. -/
def setCell (sheet : List (List String)) (r c : Nat) (v : String) :
    List (List String) :=
  let padded := padRows sheet (r + 1)
  padded.set r (setCellRow (padded.getD r []) c v)

/-- Apply a list of cell writes in order, as one values.batchUpdate does. -/
def applyWrites (sheet : List (List String)) (ws : List CellWrite) :
    List (List String) :=
  ws.foldl (fun s w => setCell s w.row w.col w.value) sheet

/-- Read one cell; a missing row or cell reads as the empty string, the way
the phase4.js code treats an absent value from the API. -/
def getCell (sheet : List (List String)) (r c : Nat) : String :=
  (sheet.getD r []).getD c ""

/-- Which of the four Sheets API calls inside updateSentStatus fail when
reached; models the error paths of the try/catch in phase4.js. -/
structure ApiBehavior where
  failGetHeader : Bool
  failHeaderUpdate : Bool
  failGetData : Bool
  failDataUpdate : Bool
deriving DecidableEq

/-- The behavior in which every Sheets API call succeeds. -/
def noFail : ApiBehavior :=
  { failGetHeader := false, failHeaderUpdate := false
    failGetData := false, failDataUpdate := false }

/-- The header repairs of phase4.js lines 35-40: write C1 := "error" unless
it already reads "error", and D1 := "sent_at" unless it already reads
"sent_at" (a missing header cell reads as empty and so is repaired too). -/
def headerWrites (sheet : List (List String)) : List CellWrite :=
  (if getCell sheet 0 2 ≠ "error" then [⟨0, 2, "error"⟩] else []) ++
    (if getCell sheet 0 3 ≠ "sent_at" then [⟨0, 3, "sent_at"⟩] else [])

/-- The row scan of phase4.js lines 67-86 over the rows after the header
row: a data row whose column A value is nonempty and is a member of
sentEmails gets column B := "email sent" and column D := the timestamp.
The index argument is the 0-based sheet row of the head of the list. -/
def dataWritesAux (sentEmails : List String) (timestamp : String) :
    Nat → List (List String) → List CellWrite
  | _, [] => []
  | i, row :: rest =>
    let e := row.getD 0 ""
    (if !row.isEmpty && e != "" && sentEmails.contains e then
      [⟨i, 1, "email sent"⟩, ⟨i, 3, timestamp⟩]
    else []) ++ dataWritesAux sentEmails timestamp (i + 1) rest

/-- The data updates of one run: the scan starts at index 1, skipping the
header row exactly as the `for (let i = 1; ...)` loop does. -/
def dataWrites (rows : List (List String)) (sentEmails : List String)
    (timestamp : String) : List CellWrite :=
  match rows with
  | [] => []
  | _ :: rest => dataWritesAux sentEmails timestamp 1 rest

/-- Shallow embedding of updateSentStatus from scripts/phase4.js.  The
timestamp is the single `new Date().toISOString()` computed before the row
loop.  Returns the final sheet and every cell write issued, or the error
re-thrown by the catch block when a reached API call fails. -/
def updateSentStatus (b : ApiBehavior) (sheet : List (List String))
    (sentEmails : List String) (timestamp : String) :
    Except String (List (List String) × List CellWrite) :=
  if b.failGetHeader then .error "failed to read header row"
  else if !(headerWrites sheet).isEmpty && b.failHeaderUpdate then
    .error "failed to update headers"
  else if b.failGetData then .error "failed to read data rows"
  else if (applyWrites sheet (headerWrites sheet)).isEmpty then
    .ok (applyWrites sheet (headerWrites sheet), headerWrites sheet)
  else if !(dataWrites (applyWrites sheet (headerWrites sheet)) sentEmails
      timestamp).isEmpty && b.failDataUpdate then
    .error "failed to update rows"
  else
    .ok (applyWrites (applyWrites sheet (headerWrites sheet))
        (dataWrites (applyWrites sheet (headerWrites sheet)) sentEmails timestamp),
      headerWrites sheet ++
        dataWrites (applyWrites sheet (headerWrites sheet)) sentEmails timestamp)

end Phase4

namespace Crawler

/-- A sequence of recordDomainOutcome calls, one after the other; each call
carries the clock reading, whether domains remain, and the domain outcome. -/
def recordMany (s : RunState) (calls : List (Nat × Bool × DomainOutcome)) : RunState :=
  calls.foldl (fun st c => recordDomainOutcome st c.1 c.2.1 c.2.2) s

/-- A run state frozen in a STOPPED status is returned unchanged by one call. -/
theorem recordDomainOutcome_frozen (s : RunState) (r : StopReason) (now : Nat)
    (more : Bool) (o : DomainOutcome) (h : s.status = .stopped r) :
    recordDomainOutcome s now more o = s := by
  unfold recordDomainOutcome
  rw [h]

/-- A sample domain outcome used to instantiate proved theorems. -/
def sampleOutcome : DomainOutcome :=
  { domain := "x.example"
    qualifiedJobs := [⟨"Intern A", "https://x.example/a", "x.example"⟩]
    candidatesSeen := 3
    wasValid := true }

/-- A sample stopped run state used to instantiate proved theorems. -/
def stoppedState : RunState :=
  { targetCount := 1
    deadline := 10
    status := .stopped .targetReached
    accepted := [⟨"Intern A", "https://x.example/a", "x.example"⟩]
    domainsAttempted := 1
    domainsValid := 1
    totalCandidatesSeen := 3
    duplicatesSkipped := 0 }

/-- C3: once the Accumulator has transitioned to any STOPPED state, every
subsequent recordDomainOutcome call is a no-op — any further sequence of
calls returns the frozen Run State unchanged, so no field (accepted,
domainsAttempted, domainsValid, totalCandidatesSeen) ever changes again. -/
theorem C3_stopped_frozen (s : RunState) (r : StopReason)
    (calls : List (Nat × Bool × DomainOutcome)) (h : s.status = .stopped r) :
    recordMany s calls = s := by
  induction calls with
  | nil => rfl
  | cons c rest ih =>
    simp only [recordMany, List.foldl_cons] at ih ⊢
    rw [recordDomainOutcome_frozen s r c.1 c.2.1 c.2.2 h]
    exact ih

/-- Witness for C3 at a concrete stopped state and concrete call. -/
theorem C3_stopped_frozen_witness :
    recordMany stoppedState [(5, true, sampleOutcome)] = stoppedState :=
  C3_stopped_frozen stoppedState .targetReached [(5, true, sampleOutcome)] rfl

/-- The accepted-versus-target relation that actually holds of the modelled
Accumulator: while RUNNING the accepted sequence is strictly below the
target, and a stop for targetReached certifies the target was met or
exceeded (the final merge may overshoot it). -/
def accInv (s : RunState) : Prop :=
  (s.status = .running → (s.accepted.length : Int) < s.targetCount) ∧
  (s.status = .stopped .targetReached → s.targetCount ≤ (s.accepted.length : Int))

instance (s : RunState) : Decidable (accInv s) := by
  unfold accInv
  infer_instance

/-- One recordDomainOutcome call preserves the accepted-versus-target relation. -/
theorem recordDomainOutcome_accInv (s : RunState) (now : Nat) (more : Bool)
    (o : DomainOutcome) (h : accInv s) :
    accInv (recordDomainOutcome s now more o) := by
  obtain ⟨tc, dl, st, acc, da, dv, tcs, ds⟩ := s
  cases st with
  | stopped r => exact h
  | running =>
    simp only [recordDomainOutcome, accInv]
    split
    · rename_i hge
      constructor
      · intro hc; exact absurd hc (by simp)
      · intro _; exact hge
    · split
      · constructor
        · intro hc; exact absurd hc (by simp)
        · intro hc; exact absurd hc (by simp)
      · split
        · rename_i hlt hdl hmore
          constructor
          · intro _; dsimp only; omega
          · intro hc; exact absurd hc (by simp)
        · constructor
          · intro hc; exact absurd hc (by simp)
          · intro hc; exact absurd hc (by simp)

/-- The run loop preserves the accepted-versus-target relation. -/
theorem runLoop_accInv :
    ∀ (work : List DomainWork) (s : RunState) (time fetches : Nat),
      accInv s → accInv (runLoop work s time fetches).1 := by
  intro work
  induction work with
  | nil =>
    intro s time fetches h
    obtain ⟨tc, dl, st, acc, da, dv, tcs, ds⟩ := s
    cases st with
    | stopped r => exact h
    | running =>
      simp only [runLoop]
      split
      · exact ⟨fun hc => absurd hc (by simp), fun hc => absurd hc (by simp)⟩
      · exact ⟨fun hc => absurd hc (by simp), fun hc => absurd hc (by simp)⟩
  | cons w rest ih =>
    intro s time fetches h
    obtain ⟨tc, dl, st, acc, da, dv, tcs, ds⟩ := s
    cases st with
    | stopped r => exact h
    | running =>
      simp only [runLoop]
      split
      · exact ⟨fun hc => absurd hc (by simp), fun hc => absurd hc (by simp)⟩
      · exact ih _ _ _ (recordDomainOutcome_accInv _ _ _ _ h)

/-- Two distinct jobs from one domain, used to overshoot a target of one. -/
def overshootWork : DomainWork :=
  { outcome :=
      { domain := "x.example"
        qualifiedJobs := [⟨"Intern A", "https://x.example/a", "x.example"⟩,
          ⟨"Intern B", "https://x.example/b", "x.example"⟩]
        candidatesSeen := 2
        wasValid := true }
    fetches := 1
    duration := 1 }

/-- C1 counterexample: with targetCount 1 and a single domain delivering two
distinct qualified jobs, the run stops with targetReached while the accepted
sequence has length 2 — the merge happens before the target check, so
accepted.length is neither bounded by targetCount nor equal to it at
targetReached. -/
theorem C1_counterexample :
    ((runCrawler ⟨1, 100, 0⟩ [overshootWork]).toOption.map
        (fun r => (r.1.status, r.1.accepted.length, r.1.targetCount)))
      = some (.stopped .targetReached, 2, 1) ∧ ¬ ((2 : Int) ≤ 1) := by
  constructor
  · rfl
  · decide

/-- C1 amended: the Accumulator merges a whole domain batch before checking
the target, so the bound that holds is: while RUNNING the accepted sequence
is strictly shorter than targetCount, and whenever the run stops with
stopReason targetReached the accepted sequence has length at least
targetCount (it can overshoot by at most the final batch).  Both are
preserved by every recordDomainOutcome call and hold of every run result. -/
theorem C1_amended :
    (∀ (s : RunState) (now : Nat) (more : Bool) (o : DomainOutcome),
        accInv s → accInv (recordDomainOutcome s now more o)) ∧
    (∀ (cfg : RunConfig) (work : List DomainWork) (r : RunState × Nat × Nat),
        runCrawler cfg work = .ok r → accInv r.1) := by
  constructor
  · exact recordDomainOutcome_accInv
  · intro cfg work r heq
    unfold runCrawler at heq
    split at heq
    · exact absurd heq (by simp)
    · rename_i htc
      have hinit : accInv (initState cfg) := by
        constructor
        · intro _; simp only [initState, List.length_nil, Int.ofNat_zero]; omega
        · intro hc; exact absurd hc (by simp [initState])
      have := runLoop_accInv work (initState cfg) cfg.startTime 0 hinit
      cases heq
      exact this

/-- Witness for C1 amended at a concrete state, call and run. -/
theorem C1_amended_witness :
    accInv (recordDomainOutcome (initState ⟨2, 100, 0⟩) 1 true sampleOutcome) ∧
    accInv (runLoop [overshootWork] (initState ⟨1, 100, 0⟩) 0 0).1 := by
  constructor
  · exact C1_amended.1 (initState ⟨2, 100, 0⟩) 1 true sampleOutcome (by decide)
  · exact C1_amended.2 ⟨1, 100, 0⟩ [overshootWork]
      (runLoop [overshootWork] (initState ⟨1, 100, 0⟩) 0 0) rfl

/-- No two accepted jobs collide on the dedup key. -/
def keysDistinct (l : List QualifiedJob) : Prop :=
  l.Pairwise (fun a b => sameJobKey a b = false)

/-- The merge never lets a job colliding with an accepted one into the list. -/
theorem mergeJobs_keysDistinct :
    ∀ (new acc : List QualifiedJob), keysDistinct acc →
      keysDistinct (mergeJobs acc new).1 := by
  intro new
  induction new with
  | nil => intro acc h; exact h
  | cons j rest ih =>
    intro acc h
    simp only [mergeJobs]
    split
    · exact ih acc h
    · rename_i hany
      apply ih
      unfold keysDistinct at h ⊢
      rw [List.pairwise_append]
      refine ⟨h, List.pairwise_singleton _ _, ?_⟩
      intro a ha b hb
      have hb2 : b = j := by simpa using hb
      subst hb2
      simp only [List.any_eq_true, not_exists, not_and, Bool.not_eq_true] at hany
      exact hany a ha

/-- On a RUNNING state the accepted list after a call is exactly the merge
of the old accepted list with the new batch. -/
theorem recordDomainOutcome_accepted (s : RunState) (now : Nat) (more : Bool)
    (o : DomainOutcome) (h : s.status = .running) :
    (recordDomainOutcome s now more o).accepted =
      (mergeJobs s.accepted o.qualifiedJobs).1 := by
  obtain ⟨tc, dl, st, acc, da, dv, tcs, ds⟩ := s
  dsimp only at h
  subst h
  simp only [recordDomainOutcome]
  split
  · rfl
  · split
    · rfl
    · split
      · rfl
      · rfl

/-- C2: the dedup key is unique across the accepted set — every call
preserves pairwise distinctness of the keys, and feeding two candidates
with identical normalized links, even from different domains, yields
exactly one accepted entry. -/
theorem C2_dedup :
    (∀ (s : RunState) (now : Nat) (more : Bool) (o : DomainOutcome),
        keysDistinct s.accepted →
        keysDistinct (recordDomainOutcome s now more o).accepted) ∧
    (∀ (s : RunState) (a b : QualifiedJob) (t1 t2 : Nat) (m1 m2 : Bool)
        (o1 o2 : DomainOutcome),
        s.status = .running → s.accepted = [] →
        o1.qualifiedJobs = [a] → o2.qualifiedJobs = [b] →
        normalizeLink a.link = normalizeLink b.link →
        a.sourceDomain ≠ b.sourceDomain →
        (recordDomainOutcome (recordDomainOutcome s t1 m1 o1) t2 m2 o2).accepted
          = [a]) := by
  constructor
  · intro s now more o h
    obtain ⟨tc, dl, st, acc, da, dv, tcs, ds⟩ := s
    cases st with
    | stopped r => exact h
    | running =>
      simp only [recordDomainOutcome]
      split
      · exact mergeJobs_keysDistinct _ _ h
      · split
        · exact mergeJobs_keysDistinct _ _ h
        · split
          · exact mergeJobs_keysDistinct _ _ h
          · exact mergeJobs_keysDistinct _ _ h
  · intro s a b t1 t2 m1 m2 o1 o2 hst hacc ho1 ho2 hlink hdom
    have hkey : sameJobKey a b = true := by
      simp [sameJobKey, hlink]
    have h1 : (recordDomainOutcome s t1 m1 o1).accepted = [a] := by
      rw [recordDomainOutcome_accepted s t1 m1 o1 hst, hacc, ho1]
      simp [mergeJobs]
    cases hst2 : (recordDomainOutcome s t1 m1 o1).status with
    | stopped r =>
      rw [recordDomainOutcome_frozen _ r t2 m2 o2 hst2]
      exact h1
    | running =>
      rw [recordDomainOutcome_accepted _ t2 m2 o2 hst2, h1, ho2]
      simp [mergeJobs, hkey]

/-- A job whose link normalizes like sampleOutcome's job but lives on a
different domain with a different raw link spelling. -/
def collidingJob : QualifiedJob :=
  ⟨"Intern B", "HTTPS://X.EXAMPLE/A/", "y.example"⟩

/-- Witness for C2: preservation at a concrete call, and the two-call
collision scenario at concrete jobs whose normalized links agree. -/
theorem C2_dedup_witness :
    keysDistinct (recordDomainOutcome (initState ⟨3, 100, 0⟩) 1 true
      sampleOutcome).accepted ∧
    (recordDomainOutcome (recordDomainOutcome (initState ⟨3, 100, 0⟩) 1 true
        ⟨"x.example", [⟨"Intern A", "https://x.example/a", "x.example"⟩], 1, true⟩)
        2 true ⟨"y.example", [collidingJob], 1, true⟩).accepted
      = [⟨"Intern A", "https://x.example/a", "x.example"⟩] := by
  constructor
  · exact C2_dedup.1 (initState ⟨3, 100, 0⟩) 1 true sampleOutcome List.Pairwise.nil
  · exact C2_dedup.2 (initState ⟨3, 100, 0⟩)
      ⟨"Intern A", "https://x.example/a", "x.example"⟩ collidingJob 1 2 true true
      _ _ rfl rfl rfl rfl (by decide) (by decide)

/-- C4: if the deadline is already in the past when the run starts, then for
every domain list the run immediately stops with STOPPED(timeoutReached),
accepted stays empty, and zero fetches are performed. -/
theorem C4_timeout_dominance (cfg : RunConfig) (work : List DomainWork)
    (htc : 0 < cfg.targetCount) (hdl : cfg.deadline ≤ cfg.startTime) :
    runCrawler cfg work =
      .ok ({ initState cfg with status := .stopped .timeoutReached },
        cfg.startTime, 0) := by
  unfold runCrawler
  rw [if_neg (by omega)]
  cases work with
  | nil => simp only [runLoop, initState]; rw [if_pos hdl]
  | cons w rest => simp only [runLoop, initState]; rw [if_pos hdl]

/-- Witness for C4 at a concrete configuration whose deadline already passed. -/
theorem C4_timeout_dominance_witness :
    runCrawler ⟨5, 10, 10⟩ [⟨sampleOutcome, 1, 1⟩] =
      .ok ({ initState ⟨5, 10, 10⟩ with status := .stopped .timeoutReached },
        10, 0) :=
  C4_timeout_dominance ⟨5, 10, 10⟩ [⟨sampleOutcome, 1, 1⟩] (by decide) (by decide)

end Crawler

namespace Phase4

/-- Reading any index other than the one just set is unchanged. -/
theorem getD_set_ne {α : Type} (d : α) (l : List α) (i j : Nat) (a : α)
    (h : i ≠ j) : (l.set i a).getD j d = l.getD j d := by
  simp [List.getD_eq_getElem?_getD, List.getElem?_set_ne h]

/-- Reading a replicated default always yields the default. -/
theorem getD_replicate_self {α : Type} (d : α) :
    ∀ (k j : Nat), (List.replicate k d).getD j d = d := by
  intro k
  induction k with
  | zero => intro j; rfl
  | succ n ih =>
    intro j
    cases j with
    | zero => rfl
    | succ m =>
      have h2 : (d :: List.replicate n d).getD (m + 1) d
          = (List.replicate n d).getD m d := by
        simp [List.getD_eq_getElem?_getD]
      rw [List.replicate_succ, h2]
      exact ih m

/-- Padding a list with default elements changes no default-read. -/
theorem getD_append_replicate {α : Type} (d : α) :
    ∀ (s : List α) (k j : Nat), (s ++ List.replicate k d).getD j d = s.getD j d := by
  intro s
  induction s with
  | nil =>
    intro k j
    rw [List.nil_append, getD_replicate_self d k j]
    rfl
  | cons a rest ih =>
    intro k j
    cases j with
    | zero => rfl
    | succ m => simpa using ih k m

/-- Reading the head cell of a cons list. -/
theorem getD_cons_zero2 {α : Type} (a : α) (l : List α) (d : α) :
    (a :: l).getD 0 d = a := by
  simp [List.getD_eq_getElem?_getD]

/-- Reading past the head of a cons list. -/
theorem getD_cons_succ2 {α : Type} (a : α) (l : List α) (k : Nat) (d : α) :
    (a :: l).getD (k + 1) d = l.getD k d := by
  simp [List.getD_eq_getElem?_getD]

/-- Writing one cell leaves every other row unchanged. -/
theorem getCell_setCell_ne_row (sheet : List (List String)) (r c : Nat)
    (v : String) (r2 c2 : Nat) (h : r2 ≠ r) :
    getCell (setCell sheet r c v) r2 c2 = getCell sheet r2 c2 := by
  unfold getCell setCell padRows
  rw [getD_set_ne ([] : List String) _ r r2 _ (fun he => h he.symm),
    getD_append_replicate ([] : List String)]

/-- A batch of header-row writes leaves every other row unchanged. -/
theorem getCell_applyWrites_row0 :
    ∀ (ws : List CellWrite) (sheet : List (List String)),
      (∀ w ∈ ws, w.row = 0) → ∀ (r c : Nat), r ≠ 0 →
      getCell (applyWrites sheet ws) r c = getCell sheet r c := by
  intro ws
  induction ws with
  | nil => intro sheet h r c hr; rfl
  | cons w rest ih =>
    intro sheet h r c hr
    have hw : w.row = 0 := h w (List.mem_cons_self w rest)
    have hrest : ∀ x ∈ rest, x.row = 0 := fun x hx => h x (List.mem_cons_of_mem w hx)
    have step : applyWrites sheet (w :: rest) =
        applyWrites (setCell sheet w.row w.col w.value) rest := rfl
    rw [step, ih _ hrest r c hr]
    exact getCell_setCell_ne_row sheet w.row w.col w.value r c
      (by rw [hw]; exact hr)

/-- Every header write targets row 1 and is one of the two repairs C1 :=
error, D1 := sent_at. -/
theorem mem_headerWrites (sheet : List (List String)) (w : CellWrite)
    (h : w ∈ headerWrites sheet) :
    w.row = 0 ∧ ((w.col = 2 ∧ w.value = "error") ∨
      (w.col = 3 ∧ w.value = "sent_at")) := by
  unfold headerWrites at h
  rcases List.mem_append.mp h with h1 | h2
  · split at h1
    · have hv : w = ⟨0, 2, "error"⟩ := by simpa using h1
      subst hv
      exact ⟨rfl, Or.inl ⟨rfl, rfl⟩⟩
    · simp at h1
  · split at h2
    · have hv : w = ⟨0, 3, "sent_at"⟩ := by simpa using h2
      subst hv
      exact ⟨rfl, Or.inr ⟨rfl, rfl⟩⟩
    · simp at h2

/-- Soundness of the row scan: every write it issues targets a row at or
after the start index, writes column B with the sent marker or column D
with the shared timestamp, and its row has a nonempty column A value that
is a member of sentEmails. -/
theorem mem_dataWritesAux (sent : List String) (ts : String) :
    ∀ (rows : List (List String)) (i : Nat) (w : CellWrite),
      w ∈ dataWritesAux sent ts i rows →
      i ≤ w.row ∧
      ((w.col = 1 ∧ w.value = "email sent") ∨ (w.col = 3 ∧ w.value = ts)) ∧
      (rows.getD (w.row - i) []).getD 0 "" ≠ "" ∧
      sent.contains ((rows.getD (w.row - i) []).getD 0 "") = true := by
  intro rows
  induction rows with
  | nil => intro i w h; simp [dataWritesAux] at h
  | cons row rest ih =>
    intro i w h
    simp only [dataWritesAux] at h
    rcases List.mem_append.mp h with h1 | h2
    · split at h1
      · rename_i hcond
        simp only [Bool.and_eq_true, bne_iff_ne, Bool.not_eq_true',
          List.isEmpty_eq_false] at hcond
        obtain ⟨⟨hrne, hnee⟩, hcont⟩ := hcond
        rcases List.mem_cons.mp h1 with he | he2
        · subst he
          refine ⟨Nat.le_refl i, Or.inl ⟨rfl, rfl⟩, ?_, ?_⟩
          · rw [Nat.sub_self, getD_cons_zero2]; exact hnee
          · rw [Nat.sub_self, getD_cons_zero2]; exact hcont
        · have he3 : w = ⟨i, 3, ts⟩ := by simpa using he2
          subst he3
          refine ⟨Nat.le_refl i, Or.inr ⟨rfl, rfl⟩, ?_, ?_⟩
          · rw [Nat.sub_self, getD_cons_zero2]; exact hnee
          · rw [Nat.sub_self, getD_cons_zero2]; exact hcont
      · simp at h1
    · obtain ⟨hle, hcv, hne, hcont⟩ := ih (i + 1) w h2
      have hidx : w.row - i = (w.row - (i + 1)) + 1 := by omega
      refine ⟨by omega, hcv, ?_, ?_⟩
      · rw [hidx, getD_cons_succ2]; exact hne
      · rw [hidx, getD_cons_succ2]; exact hcont

/-- Completeness of the row scan: a row at or past the start index whose
column A value is nonempty and a member of sentEmails receives both the
column B marker and the column D timestamp. -/
theorem dataWritesAux_complete (sent : List String) (ts : String) :
    ∀ (rows : List (List String)) (i k : Nat),
      k < rows.length →
      (rows.getD k []).getD 0 "" ≠ "" →
      sent.contains ((rows.getD k []).getD 0 "") = true →
      CellWrite.mk (i + k) 1 "email sent" ∈ dataWritesAux sent ts i rows ∧
      CellWrite.mk (i + k) 3 ts ∈ dataWritesAux sent ts i rows := by
  intro rows
  induction rows with
  | nil => intro i k hk; simp at hk
  | cons row rest ih =>
    intro i k hk hne hcont
    cases k with
    | zero =>
      rw [getD_cons_zero2] at hne hcont
      have hrne : row.isEmpty = false := by
        cases row with
        | nil => exact absurd rfl hne
        | cons a l => rfl
      have hcond : (!row.isEmpty && row.getD 0 "" != "" &&
          sent.contains (row.getD 0 "")) = true := by
        simp only [hrne, Bool.not_false, Bool.true_and, Bool.and_eq_true,
          bne_iff_ne]
        exact ⟨hne, hcont⟩
      constructor
      · simp only [dataWritesAux, hcond, if_pos]
        simp
      · simp only [dataWritesAux, hcond, if_pos]
        simp
    | succ m =>
      rw [getD_cons_succ2] at hne hcont
      have hmk : m < rest.length := by
        simpa using Nat.lt_of_succ_lt_succ hk
      obtain ⟨hb, hd⟩ := ih (i + 1) m hmk hne hcont
      have hidx : i + (m + 1) = (i + 1) + m := by omega
      constructor
      · rw [hidx]
        simp only [dataWritesAux]
        exact List.mem_append_right _ hb
      · rw [hidx]
        simp only [dataWritesAux]
        exact List.mem_append_right _ hd

end Phase4

namespace Phase4

/-- Every successful updateSentStatus call took one of the two success
paths — header repairs only (the data read returned nothing), or header
repairs followed by the row updates — and every API call it reached
succeeded. -/
theorem updateSentStatus_ok_cases (b : ApiBehavior) (sheet : List (List String))
    (sent : List String) (ts : String) (out : List (List String) × List CellWrite)
    (heq : updateSentStatus b sheet sent ts = .ok out) :
    b.failGetHeader = false ∧ b.failGetData = false ∧
    ((headerWrites sheet).isEmpty = false → b.failHeaderUpdate = false) ∧
    (((applyWrites sheet (headerWrites sheet)).isEmpty = true ∧
        out = (applyWrites sheet (headerWrites sheet), headerWrites sheet)) ∨
      ((applyWrites sheet (headerWrites sheet)).isEmpty = false ∧
        ((dataWrites (applyWrites sheet (headerWrites sheet)) sent ts).isEmpty
            = false → b.failDataUpdate = false) ∧
        out = (applyWrites (applyWrites sheet (headerWrites sheet))
            (dataWrites (applyWrites sheet (headerWrites sheet)) sent ts),
          headerWrites sheet ++
            dataWrites (applyWrites sheet (headerWrites sheet)) sent ts))) := by
  unfold updateSentStatus at heq
  split at heq
  · exact absurd heq (by simp)
  · rename_i h1
    split at heq
    · exact absurd heq (by simp)
    · rename_i h2
      split at heq
      · exact absurd heq (by simp)
      · rename_i h3
        have hb1 : b.failGetHeader = false := Bool.eq_false_iff.mpr h1
        have hb3 : b.failGetData = false := Bool.eq_false_iff.mpr h3
        have hb2 : (headerWrites sheet).isEmpty = false →
            b.failHeaderUpdate = false :=
          fun hne => Bool.eq_false_iff.mpr (fun ht => h2 (by simp [hne, ht]))
        split at heq
        · rename_i h4
          exact ⟨hb1, hb3, hb2, Or.inl ⟨h4, (Except.ok.inj heq).symm⟩⟩
        · rename_i h4
          split at heq
          · exact absurd heq (by simp)
          · rename_i h5
            refine ⟨hb1, hb3, hb2, Or.inr ⟨Bool.eq_false_iff.mpr h4, ?_,
              (Except.ok.inj heq).symm⟩⟩
            intro hdw
            exact Bool.eq_false_iff.mpr (fun ht => h5 (by simp [hdw, ht]))

/-- Which cell writes phase4.js may issue for a given sheet and sent list:
the two header repairs C1 := error and D1 := sent_at, or a column B /
column D write to a data row (row index at least 1, so sheet row 2 or
later) whose column A value is nonempty and a member of sentEmails. -/
def writeAllowed (sheet : List (List String)) (sent : List String)
    (w : CellWrite) : Prop :=
  (w.row = 0 ∧ w.col = 2 ∧ w.value = "error") ∨
  (w.row = 0 ∧ w.col = 3 ∧ w.value = "sent_at") ∨
  (1 ≤ w.row ∧ (w.col = 1 ∨ w.col = 3) ∧
    getCell sheet w.row 0 ≠ "" ∧ sent.contains (getCell sheet w.row 0) = true)

instance (sheet : List (List String)) (sent : List String) (w : CellWrite) :
    Decidable (writeAllowed sheet sent w) := by
  unfold writeAllowed
  infer_instance

/-- C8: updateSentStatus only ever writes the header cells C1 and D1 and,
for data rows whose column A value is in sentEmails, columns B and D of
that row; it never writes column A, never writes the status cells of the
header row, and never writes any cell of a non-matching row. -/
theorem C8_frame (b : ApiBehavior) (sheet : List (List String))
    (sent : List String) (ts : String)
    (out : List (List String) × List CellWrite)
    (heq : updateSentStatus b sheet sent ts = .ok out) :
    ∀ w ∈ out.2, writeAllowed sheet sent w := by
  intro w hw
  obtain ⟨-, -, -, hcases⟩ := updateSentStatus_ok_cases b sheet sent ts out heq
  have hmemHeader : ∀ x ∈ headerWrites sheet, writeAllowed sheet sent x := by
    intro x hx
    obtain ⟨hr, hcv⟩ := mem_headerWrites sheet x hx
    rcases hcv with ⟨hc, hv⟩ | ⟨hc, hv⟩
    · exact Or.inl ⟨hr, hc, hv⟩
    · exact Or.inr (Or.inl ⟨hr, hc, hv⟩)
  rcases hcases with ⟨h4, hout⟩ | ⟨h4, hdu, hout⟩
  · rw [hout] at hw
    exact hmemHeader w hw
  · rw [hout] at hw
    rcases List.mem_append.mp hw with hwh | hwd
    · exact hmemHeader w hwh
    · cases hs1 : applyWrites sheet (headerWrites sheet) with
      | nil => rw [hs1] at h4; simp at h4
      | cons row0 rest =>
        rw [hs1] at hwd
        simp only [dataWrites] at hwd
        obtain ⟨hle, hcv, hne, hcont⟩ := mem_dataWritesAux sent ts rest 1 w hwd
        obtain ⟨k, hk⟩ : ∃ k, w.row = k + 1 := ⟨w.row - 1, by omega⟩
        have hrows0 : ∀ x ∈ headerWrites sheet, x.row = 0 :=
          fun x hx => (mem_headerWrites sheet x hx).1
        have hcell : getCell sheet w.row 0 = (rest.getD (w.row - 1) []).getD 0 "" := by
          rw [← getCell_applyWrites_row0 (headerWrites sheet) sheet hrows0
            w.row 0 (by omega)]
          rw [hs1, hk]
          unfold getCell
          rw [getD_cons_succ2, Nat.add_sub_cancel]
        refine Or.inr (Or.inr ⟨hle, ?_, ?_, ?_⟩)
        · rcases hcv with ⟨hc, -⟩ | ⟨hc, -⟩
          · exact Or.inl hc
          · exact Or.inr hc
        · rw [hcell]; exact hne
        · rw [hcell]; exact hcont

/-- The running example sheet: a header row and one data row. -/
def sampleSheet : List (List String) := [["email", "sent_status"], ["a@b.c", ""]]

/-- The final sheet and the writes the running example produces. -/
def sampleOut : List (List String) × List CellWrite :=
  ([["email", "sent_status", "error", "sent_at"],
    ["a@b.c", "email sent", "", "TS"]],
    [⟨0, 2, "error"⟩, ⟨0, 3, "sent_at"⟩, ⟨1, 1, "email sent"⟩, ⟨1, 3, "TS"⟩])

/-- Witness for C8 at the running example and a concrete data write. -/
theorem C8_frame_witness :
    writeAllowed sampleSheet ["a@b.c"] ⟨1, 1, "email sent"⟩ :=
  C8_frame noFail sampleSheet ["a@b.c"] "TS" sampleOut rfl
    ⟨1, 1, "email sent"⟩ (by decide)

end Phase4

namespace Phase4

/-- C9: within one call every data-row write carries the single timestamp
computed before the row loop in column D and exactly the string email sent
in column B; and every matching data row receives both writes. -/
theorem C9_uniform_timestamp (b : ApiBehavior) (sheet : List (List String))
    (sent : List String) (ts : String)
    (out : List (List String) × List CellWrite)
    (heq : updateSentStatus b sheet sent ts = .ok out) :
    (∀ w ∈ out.2, 1 ≤ w.row →
      (w.col = 3 → w.value = ts) ∧ (w.col = 1 → w.value = "email sent")) ∧
    (∀ r : Nat, 1 ≤ r → r < (applyWrites sheet (headerWrites sheet)).length →
      getCell (applyWrites sheet (headerWrites sheet)) r 0 ≠ "" →
      sent.contains (getCell (applyWrites sheet (headerWrites sheet)) r 0) = true →
      CellWrite.mk r 1 "email sent" ∈ out.2 ∧ CellWrite.mk r 3 ts ∈ out.2) := by
  obtain ⟨-, -, -, hcases⟩ := updateSentStatus_ok_cases b sheet sent ts out heq
  constructor
  · intro w hw hrow
    rcases hcases with ⟨h4, hout⟩ | ⟨h4, hdu, hout⟩
    · rw [hout] at hw
      have := (mem_headerWrites sheet w hw).1
      omega
    · rw [hout] at hw
      rcases List.mem_append.mp hw with hwh | hwd
      · have := (mem_headerWrites sheet w hwh).1
        omega
      · cases hs1 : applyWrites sheet (headerWrites sheet) with
        | nil => rw [hs1] at h4; simp at h4
        | cons row0 rest =>
          rw [hs1] at hwd
          simp only [dataWrites] at hwd
          obtain ⟨-, hcv, -, -⟩ := mem_dataWritesAux sent ts rest 1 w hwd
          constructor
          · intro hc3
            rcases hcv with ⟨hc, hv⟩ | ⟨hc, hv⟩
            · rw [hc] at hc3
              exact absurd hc3 (by decide)
            · exact hv
          · intro hc1
            rcases hcv with ⟨hc, hv⟩ | ⟨hc, hv⟩
            · exact hv
            · rw [hc] at hc1
              exact absurd hc1 (by decide)
  · intro r hr hrlen hne hcont
    rcases hcases with ⟨h4, hout⟩ | ⟨h4, hdu, hout⟩
    · rw [List.isEmpty_eq_true] at h4
      rw [h4] at hrlen
      simp at hrlen
    · cases hs1 : applyWrites sheet (headerWrites sheet) with
      | nil => rw [hs1] at h4; simp at h4
      | cons row0 rest =>
        obtain ⟨k, hk⟩ : ∃ k, r = k + 1 := ⟨r - 1, by omega⟩
        have hrk : (rest.getD k []).getD 0 "" =
            getCell (applyWrites sheet (headerWrites sheet)) r 0 := by
          rw [hs1, hk]
          unfold getCell
          rw [getD_cons_succ2]
        have hklen : k < rest.length := by
          rw [hs1, hk] at hrlen
          simpa using hrlen
        obtain ⟨hb, hd⟩ := dataWritesAux_complete sent ts rest 1 k hklen
          (by rw [hrk]; exact hne) (by rw [hrk]; exact hcont)
        have hik : 1 + k = r := by omega
        rw [hik] at hb hd
        rw [hout]
        have hdwrw : dataWrites (applyWrites sheet (headerWrites sheet)) sent ts
            = dataWritesAux sent ts 1 rest := by
          rw [hs1]
          simp only [dataWrites]
        constructor
        · exact List.mem_append_right _ (by rw [hdwrw]; exact hb)
        · exact List.mem_append_right _ (by rw [hdwrw]; exact hd)

/-- Witness for C9 at the running example: the matching data row receives
both the column B marker and the shared timestamp write. -/
theorem C9_uniform_timestamp_witness :
    CellWrite.mk 1 1 "email sent" ∈ sampleOut.2 ∧
    CellWrite.mk 1 3 "TS" ∈ sampleOut.2 :=
  (C9_uniform_timestamp noFail sampleSheet ["a@b.c"] "TS" sampleOut rfl).2
    1 (by decide) (by decide) (by decide) (by decide)

end Phase4

namespace Phase4

/-- C10: a failing Sheets API call inside updateSentStatus is re-thrown to
the caller — a failing header read or data read always surfaces as an
error, a success certifies that every reached API call succeeded — while
an empty sheet or a run with no matching emails returns normally without
issuing any data-row write. -/
theorem C10_error_rethrow :
    (∀ (b : ApiBehavior) (sheet : List (List String)) (sent : List String)
        (ts : String),
        (b.failGetHeader = true ∨ b.failGetData = true) →
        isSuccess (updateSentStatus b sheet sent ts) = false) ∧
    (∀ (b : ApiBehavior) (sheet : List (List String)) (sent : List String)
        (ts : String) (out : List (List String) × List CellWrite),
        updateSentStatus b sheet sent ts = .ok out →
        b.failGetHeader = false ∧ b.failGetData = false ∧
        ((headerWrites sheet).isEmpty = false → b.failHeaderUpdate = false) ∧
        ((dataWrites (applyWrites sheet (headerWrites sheet)) sent ts).isEmpty
            = false → b.failDataUpdate = false)) ∧
    (∀ (sheet : List (List String)) (sent : List String) (ts : String),
        (∀ r : Nat, 1 ≤ r → getCell sheet r 0 ≠ "" →
          sent.contains (getCell sheet r 0) = false) →
        ∃ out, updateSentStatus noFail sheet sent ts = .ok out ∧
          ∀ w ∈ out.2, w.row = 0) := by
  refine ⟨?_, ?_, ?_⟩
  · intro b sheet sent ts hf
    unfold updateSentStatus isSuccess
    rcases hf with hf | hf
    · rw [if_pos hf]
      rfl
    · by_cases h1 : b.failGetHeader = true
      · rw [if_pos h1]
        rfl
      · rw [if_neg h1]
        by_cases h2 : (!(headerWrites sheet).isEmpty && b.failHeaderUpdate) = true
        · rw [if_pos h2]
          rfl
        · rw [if_neg h2, if_pos hf]
          rfl
  · intro b sheet sent ts out heq
    obtain ⟨hb1, hb3, hb2, hcases⟩ := updateSentStatus_ok_cases b sheet sent ts out heq
    refine ⟨hb1, hb3, hb2, ?_⟩
    rcases hcases with ⟨h4, -⟩ | ⟨-, hdu, -⟩
    · intro hdw
      rw [List.isEmpty_eq_true] at h4
      rw [h4] at hdw
      simp [dataWrites] at hdw
    · exact hdu
  · intro sheet sent ts hno
    have hrows0 : ∀ x ∈ headerWrites sheet, x.row = 0 :=
      fun x hx => (mem_headerWrites sheet x hx).1
    have hdw : dataWrites (applyWrites sheet (headerWrites sheet)) sent ts = [] := by
      cases hs1 : applyWrites sheet (headerWrites sheet) with
      | nil => simp [dataWrites]
      | cons row0 rest =>
        simp only [dataWrites]
        by_contra hnenil
        obtain ⟨w, hw⟩ := List.exists_mem_of_ne_nil _ hnenil
        obtain ⟨hle, -, hne2, hcont⟩ := mem_dataWritesAux sent ts rest 1 w hw
        obtain ⟨k, hk⟩ : ∃ k, w.row = k + 1 := ⟨w.row - 1, by omega⟩
        have hcell : getCell sheet w.row 0 = (rest.getD (w.row - 1) []).getD 0 "" := by
          rw [← getCell_applyWrites_row0 (headerWrites sheet) sheet hrows0
            w.row 0 (by omega)]
          rw [hs1, hk]
          unfold getCell
          rw [getD_cons_succ2, Nat.add_sub_cancel]
        have hfalse := hno w.row (by omega) (by rw [hcell]; exact hne2)
        rw [hcell] at hfalse
        rw [hfalse] at hcont
        cases hcont
    by_cases h4 : (applyWrites sheet (headerWrites sheet)).isEmpty = true
    · refine ⟨(applyWrites sheet (headerWrites sheet), headerWrites sheet), ?_, ?_⟩
      · unfold updateSentStatus
        rw [if_neg (by simp [noFail]), if_neg (by simp [noFail]),
          if_neg (by simp [noFail]), if_pos h4]
      · intro w hw
        exact hrows0 w hw
    · refine ⟨(applyWrites (applyWrites sheet (headerWrites sheet))
          (dataWrites (applyWrites sheet (headerWrites sheet)) sent ts),
        headerWrites sheet ++
          dataWrites (applyWrites sheet (headerWrites sheet)) sent ts), ?_, ?_⟩
      · unfold updateSentStatus
        rw [if_neg (by simp [noFail]), if_neg (by simp [noFail]),
          if_neg (by simp [noFail]), if_neg h4, if_neg (by simp [hdw])]
      · intro w hw
        rcases List.mem_append.mp hw with h | h
        · exact hrows0 w h
        · rw [hdw] at h
          cases h

/-- Witness for C10: a failing header read at the running example surfaces
as an error, an all-success run on an empty sheet returns normally, and the
successful running example certifies its reached API calls succeeded. -/
theorem C10_error_rethrow_witness :
    isSuccess (updateSentStatus ⟨true, false, false, false⟩ sampleSheet
      ["a@b.c"] "TS") = false ∧
    isSuccess (updateSentStatus noFail [] [] "TS") = true ∧
    noFail.failGetHeader = false := by
  refine ⟨C10_error_rethrow.1 ⟨true, false, false, false⟩ sampleSheet
    ["a@b.c"] "TS" (Or.inl rfl), ?_,
    (C10_error_rethrow.2.1 noFail sampleSheet ["a@b.c"] "TS" sampleOut rfl).1⟩
  obtain ⟨out, heq, -⟩ := C10_error_rethrow.2.2 [] [] "TS"
    (fun r hr hne => absurd rfl hne)
  rw [isSuccess, heq]
  rfl

end Phase4
